import Mathlib

/-!
Shallow embedding of the check-jenkins-build-time plugin
(lib/check_jenkins_build_time.go).

Modelling conventions:
* Go time.Time values are integers counting nanoseconds since the Unix epoch;
  Go time.Duration is likewise an integer number of nanoseconds
  (time.Second = 10^9).  The claims under study stay well inside the int64
  range, so plain Int is used.
* time.Now() is passed to each operation explicitly as the parameter now.
* The fetch and the body decode of run are represented by an
  Except String (builds × Bool) argument: error e models a failed http.Get,
  ok (bs, decodeErr) models a successful fetch whose json Decode produced the
  value bs and additionally reported an error iff decodeErr (the Go code
  discards that error value, which the embedding mirrors by ignoring the
  Bool).
-/

/-- Nanoseconds in one second, Go time.Second. -/
def nsPerSecond : Int := 1000000000

/-- Verdicts of the mackerelio checkers library used by the plugin. -/
inductive Status where
  | OK
  | WARNING
  | CRITICAL
  | UNKNOWN
  deriving DecidableEq

/-- Outcome of one check invocation: a status plus a message
(checkers.Checker, name field omitted as it is set uniformly by Do). -/
structure Checker where
  status : Status
  message : String
  deriving DecidableEq

/-- One Jenkins build record, the Go struct build.  Timestamp is the decoded
jsonTime start instant in nanoseconds since the Unix epoch; Result is the
optional terminal-status pointer. -/
structure build where
  Number : Int
  Result : Option String
  Timestamp : Int
  deriving DecidableEq

/-- build.isUnfinished: the Result pointer is nil. -/
def build.isUnfinished (b : build) : Bool := b.Result.isNone

/-- Response body struct builds, wrapping the builds array. -/
structure builds where
  Builds : List build
  deriving DecidableEq

/-- filterUnfinishedTooLongBuilds: keep the builds that are unfinished and
whose elapsed time now - timestamp strictly exceeds the threshold.  In Go the
function reads the clock itself; here now is explicit. -/
def filterUnfinishedTooLongBuilds (now : Int) (bs : List build) (threshold : Int) : List build :=
  bs.filter (fun b => b.isUnfinished && decide (threshold < now - b.Timestamp))

/-- Little-endian base-10 digits of n, by fuelled recursion (the digit loop
inside strconv.FormatInt).  With fuel ≥ n the fuel never runs out. -/
def toDigitsRev : Nat → Nat → List Nat
  | 0, _ => []
  | fuel + 1, n => if n = 0 then [] else n % 10 :: toDigitsRev fuel (n / 10)

/-- Value of a little-endian digit list. -/
def valLE : List Nat → Nat
  | [] => 0
  | d :: ds => d + 10 * valLE ds

/-- Character for one decimal digit, as in strconv. -/
def natDigitChar (d : Nat) : Char := Char.ofNat (48 + d)

/-- strconv.FormatInt(n, 10) for a natural number. -/
def formatNat (n : Nat) : String :=
  if n = 0 then "0" else String.mk ((toDigitsRev n n).reverse.map natDigitChar)

/-- strconv.FormatInt(i, 10): decimal rendering with a leading minus sign for
negative values.  Also the model of the fmt %d verb. -/
def formatInt (i : Int) : String :=
  if i < 0 then ("-") ++ formatNat i.natAbs else formatNat i.natAbs

/-- Numeric value of one character, the digit step of strconv.ParseUint:
characters between 0 and 9 map to their value, anything else is a parse
failure. -/
def digit? (c : Char) : Option Nat :=
  if 48 ≤ c.toNat ∧ c.toNat ≤ 57 then some (c.toNat - 48) else none

/-- Digit values of a character list; none as soon as one character is not a
decimal digit. -/
def digitVals : List Char → Option (List Nat)
  | [] => some []
  | c :: cs =>
    match digit? c, digitVals cs with
    | some d, some ds => some (d :: ds)
    | _, _ => none

/-- Value of a most-significant-first digit list, the accumulator loop of
strconv.ParseUint. -/
def msfVal (ds : List Nat) : Nat := ds.foldl (fun a d => a * 10 + d) 0

/-- Optionally signed decimal integer syntax of strconv.ParseInt (base 10):
an optional + or - sign followed by at least one decimal digit; the exact
integer value, not yet range checked. -/
def parseDecimal (s : String) : Option Int :=
  match s.data with
  | [] => none
  | c :: cs =>
    if c = '-' then
      match digitVals cs with
      | some (d :: ds) => some (-(msfVal (d :: ds) : Int))
      | _ => none
    else if c = '+' then
      match digitVals cs with
      | some (d :: ds) => some ((msfVal (d :: ds) : Int))
      | _ => none
    else
      match digitVals (c :: cs) with
      | some (d :: ds) => some ((msfVal (d :: ds) : Int))
      | _ => none

/-- strconv.ParseInt(s, 10, 64): signed decimal syntax plus the signed 64-bit
range check; Go reports ErrSyntax or ErrRange, both collapse to none here. -/
def goParseInt64 (s : String) : Option Int :=
  match parseDecimal s with
  | none => none
  | some v => if -9223372036854775808 ≤ v ∧ v < 9223372036854775808 then some v else none

/-- time.Unix(sec, 0), as nanoseconds since the epoch. -/
def timeUnix (sec : Int) : Int := sec * nsPerSecond

/-- time.Time.Unix(): whole seconds since the epoch, floor of the nanosecond
count. -/
def unixSeconds (t : Int) : Int := t.fdiv nsPerSecond

/-- jsonTime.MarshalJSON: the bytes of strconv.FormatInt(t.Unix(), 10). -/
def MarshalJSON (t : Int) : String := formatInt (unixSeconds t)

/-- strings.Replace(s, quote, empty, -1): remove every double-quote character,
wherever it occurs. -/
def removeQuotes (s : String) : String :=
  String.mk (s.data.filter (fun c => c != '"'))

/-- jsonTime.UnmarshalJSON: strip the quote characters, ParseInt the rest, and
on success build time.Unix(q/1000, 0); Go division truncates toward zero.
none models the returned error. -/
def UnmarshalJSON (s : String) : Option Int :=
  match goParseInt64 (removeQuotes s) with
  | none => none
  | some q => some (timeUnix (q.tdiv 1000))

/-- Message built by run for an offending build,
fmt.Sprintf of Build id takes too long time. -/
def buildMsg (b : build) : String :=
  ("Build id = ") ++ formatInt b.Number ++ (" takes too long time")

/-- run, after argument parsing: on fetch error the UNKNOWN checker with the
error text appended; otherwise the first build of the critical filter, else
the first build of the warning filter, else OK.  The Bool decode-error flag of
a successful fetch is discarded exactly as the Go code discards the result of
json Decode. -/
def run (now warnS critS : Int) (fetch : Except String (builds × Bool)) : Checker :=
  match fetch with
  | Except.error e =>
    { status := Status.UNKNOWN, message := ("Faild to fetch jenkins metrics: ") ++ e }
  | Except.ok (bs, _) =>
    match filterUnfinishedTooLongBuilds now bs.Builds (nsPerSecond * critS) with
    | b :: _ => { status := Status.CRITICAL, message := buildMsg b }
    | [] =>
      match filterUnfinishedTooLongBuilds now bs.Builds (nsPerSecond * warnS) with
      | b :: _ => { status := Status.WARNING, message := buildMsg b }
      | [] => { status := Status.OK, message := "No build that takes too long time exists" }

/-- Modelled from the spec: the spec phrase stripping optional surrounding
quote characters, read literally as removing one quote from each end when
both ends carry one.  Used only to compare the spec wording of claim C6 with
the code, which removes every quote character instead. -/
def stripSurroundingQuotes (s : String) : String :=
  if 2 ≤ s.data.length ∧ s.data.head? = some '"' ∧ s.data.getLast? = some '"'
  then String.mk ((s.data.drop 1).dropLast) else s

/-- Modelled from the spec: the encode direction claimed by the spec, the
milliseconds-since-epoch value rendered as a decimal string (10^6 nanoseconds
per millisecond).  Used only to compare claim C4 with the code. -/
def specMarshalMs (t : Int) : String := formatInt (t.fdiv 1000000)

/-! ## Helper lemmas -/

/-- Membership characterization of the filter. -/
theorem mem_filterUnfinishedTooLongBuilds (now : Int) (bs : List build) (T : Int) (b : build) :
    b ∈ filterUnfinishedTooLongBuilds now bs T ↔
      b ∈ bs ∧ b.Result = none ∧ T < now - b.Timestamp := by
  simp [filterUnfinishedTooLongBuilds, List.mem_filter, build.isUnfinished,
    Option.isNone_iff_eq_none, and_assoc]

/-- With enough fuel the digit list of toDigitsRev evaluates back to n. -/
theorem valLE_toDigitsRev (fuel : Nat) : ∀ n, n ≤ fuel → valLE (toDigitsRev fuel n) = n := by
  induction fuel with
  | zero =>
    intro n h
    interval_cases n
    rfl
  | succ fuel ih =>
    intro n h
    by_cases hn : n = 0
    · simp [toDigitsRev, hn, valLE]
    · have h10 : n / 10 < n := Nat.div_lt_self (Nat.pos_of_ne_zero hn) (by omega)
      have hrec : valLE (toDigitsRev fuel (n / 10)) = n / 10 := ih _ (by omega)
      simp [toDigitsRev, hn, valLE, hrec]
      omega

/-- Every digit produced by toDigitsRev is below 10. -/
theorem toDigitsRev_lt (fuel : Nat) : ∀ n d, d ∈ toDigitsRev fuel n → d < 10 := by
  induction fuel with
  | zero =>
    intro n d h
    simp [toDigitsRev] at h
  | succ fuel ih =>
    intro n d h
    by_cases hn : n = 0
    · simp [toDigitsRev, hn] at h
    · simp [toDigitsRev, hn] at h
      rcases h with h | h
      · omega
      · exact ih _ _ h

/-- For a nonzero input the digit list is nonempty. -/
theorem toDigitsRev_ne_nil (n : Nat) (hn : n ≠ 0) : toDigitsRev n n ≠ [] := by
  cases n with
  | zero => exact absurd rfl hn
  | succ m => simp [toDigitsRev]

/-- digit? recovers the digit behind natDigitChar. -/
theorem digit?_natDigitChar : ∀ d, d < 10 → digit? (natDigitChar d) = some d := by decide

/-- natDigitChar never yields a sign character. -/
theorem natDigitChar_ne_sign : ∀ d, d < 10 →
    ¬ (natDigitChar d = '-') ∧ ¬ (natDigitChar d = '+') := by decide

/-- natDigitChar never yields a double quote. -/
theorem natDigitChar_ne_quote : ∀ d, d < 10 → ¬ (natDigitChar d = '"') := by decide

/-- digitVals recovers a digit list rendered through natDigitChar. -/
theorem digitVals_map (l : List Nat) (h : ∀ d ∈ l, d < 10) :
    digitVals (l.map natDigitChar) = some l := by
  induction l with
  | nil => rfl
  | cons d ds ih =>
    have hd : digit? (natDigitChar d) = some d := digit?_natDigitChar d (h d (by simp))
    have hds : digitVals (ds.map natDigitChar) = some ds := ih (fun x hx => h x (by simp [hx]))
    simp [digitVals, hd, hds]

/-- The most-significant-first accumulator over a reversed digit list computes
the little-endian value. -/
theorem foldl_digits_reverse (l : List Nat) : ∀ a : Nat,
    List.foldl (fun a d => a * 10 + d) a l.reverse = a * 10 ^ l.length + valLE l := by
  induction l with
  | nil => intro a; simp [valLE]
  | cons d ds ih =>
    intro a
    simp [List.foldl_append, ih, valLE]
    ring

/-- msfVal of a reversed digit list is the little-endian value. -/
theorem msfVal_reverse (l : List Nat) : msfVal l.reverse = valLE l := by
  simpa [msfVal] using foldl_digits_reverse l 0

/-- Parsing an unsigned digit rendering yields its msfVal. -/
theorem parseDecimal_mk_digits (d : Nat) (ds : List Nat) (hlt : ∀ x ∈ d :: ds, x < 10) :
    parseDecimal (String.mk ((d :: ds).map natDigitChar)) = some ((msfVal (d :: ds) : Int)) := by
  have hd : d < 10 := hlt d (by simp)
  have hsign := natDigitChar_ne_sign d hd
  have hvals : digitVals (natDigitChar d :: ds.map natDigitChar) = some (d :: ds) := by
    simpa using digitVals_map (d :: ds) hlt
  simp [parseDecimal, hsign.1, hsign.2, hvals]

/-- Parsing a minus sign followed by a digit rendering yields the negated
msfVal. -/
theorem parseDecimal_neg_mk_digits (d : Nat) (ds : List Nat) (hlt : ∀ x ∈ d :: ds, x < 10) :
    parseDecimal (String.mk ('-' :: (d :: ds).map natDigitChar)) =
      some (-(msfVal (d :: ds) : Int)) := by
  have hvals : digitVals (natDigitChar d :: ds.map natDigitChar) = some (d :: ds) := by
    simpa using digitVals_map (d :: ds) hlt
  simp [parseDecimal, hvals]

/-- The digit list behind formatNat for a nonzero n. -/
theorem exists_digits_formatNat (n : Nat) (hn : n ≠ 0) :
    ∃ d ds, (toDigitsRev n n).reverse = d :: ds ∧ (∀ x ∈ d :: ds, x < 10) ∧
      msfVal (d :: ds) = n := by
  have hne : (toDigitsRev n n).reverse ≠ [] := by
    simpa using toDigitsRev_ne_nil n hn
  cases hrev : (toDigitsRev n n).reverse with
  | nil => exact absurd hrev hne
  | cons d ds =>
    refine ⟨d, ds, rfl, ?_, ?_⟩
    · intro x hx
      exact toDigitsRev_lt n n x (List.mem_reverse.mp (hrev ▸ hx))
    · have h1 : msfVal (toDigitsRev n n).reverse = valLE (toDigitsRev n n) :=
        msfVal_reverse (toDigitsRev n n)
      have h2 : valLE (toDigitsRev n n) = n := valLE_toDigitsRev n n le_rfl
      rw [hrev] at h1
      rw [h1, h2]

/-- parseDecimal inverts formatNat. -/
theorem parseDecimal_formatNat (n : Nat) :
    parseDecimal (formatNat n) = some ((n : Int)) := by
  by_cases hn : n = 0
  · subst hn
    decide
  · obtain ⟨d, ds, hrev, hlt, hval⟩ := exists_digits_formatNat n hn
    rw [formatNat, if_neg hn, hrev, parseDecimal_mk_digits d ds hlt, hval]

/-- parseDecimal inverts formatInt. -/
theorem parseDecimal_formatInt (i : Int) :
    parseDecimal (formatInt i) = some i := by
  by_cases hi : i < 0
  · have hn : i.natAbs ≠ 0 := by
      simp [Int.natAbs_eq_zero]
      omega
    obtain ⟨d, ds, hrev, hlt, hval⟩ := exists_digits_formatNat i.natAbs hn
    have hdata : (("-") ++ formatNat i.natAbs).data = '-' :: (d :: ds).map natDigitChar := by
      rw [String.data_append, formatNat, if_neg hn, hrev]
      rfl
    have hmk : ("-") ++ formatNat i.natAbs = String.mk ('-' :: (d :: ds).map natDigitChar) := by
      cases hs : ("-") ++ formatNat i.natAbs with
      | mk l => rw [hs] at hdata; simp at hdata; rw [hdata]; rfl
    rw [formatInt, if_pos hi, hmk, parseDecimal_neg_mk_digits d ds hlt, hval]
    congr 1
    omega
  · rw [formatInt, if_neg hi, parseDecimal_formatNat]
    congr 1
    omega

/-- goParseInt64 inverts formatInt inside the signed 64-bit range. -/
theorem goParseInt64_formatInt (i : Int)
    (h0 : -9223372036854775808 ≤ i) (h1 : i < 9223372036854775808) :
    goParseInt64 (formatInt i) = some i := by
  simp [goParseInt64, parseDecimal_formatInt, h0, h1]

/-- formatNat never emits a double quote. -/
theorem formatNat_no_quote (n : Nat) : ∀ c ∈ (formatNat n).data, ¬ (c = '"') := by
  intro c hc
  by_cases hn : n = 0
  · subst hn
    simp [formatNat] at hc
    subst hc
    decide
  · obtain ⟨d, ds, hrev, hlt, hval⟩ := exists_digits_formatNat n hn
    rw [formatNat, if_neg hn, hrev] at hc
    simp at hc
    rcases hc with rfl | ⟨a, ha, rfl⟩
    · exact natDigitChar_ne_quote d (hlt d (by simp))
    · exact natDigitChar_ne_quote a (hlt a (by simp [ha]))

/-- formatInt never emits a double quote. -/
theorem formatInt_no_quote (i : Int) : ∀ c ∈ (formatInt i).data, ¬ (c = '"') := by
  intro c hc
  by_cases hi : i < 0
  · rw [formatInt, if_pos hi, String.data_append] at hc
    simp at hc
    rcases hc with hc | hc
    · subst hc; decide
    · exact formatNat_no_quote i.natAbs c hc
  · rw [formatInt, if_neg hi] at hc
    exact formatNat_no_quote i.natAbs c hc

/-- removeQuotes is the identity on quote-free strings. -/
theorem removeQuotes_eq_self (s : String) (h : ∀ c ∈ s.data, ¬ (c = '"')) :
    removeQuotes s = s := by
  have hf : s.data.filter (fun c => c != '"') = s.data := by
    rw [List.filter_eq_self]
    intro c hc
    simpa using h c hc
  cases s with
  | mk l =>
    simp only [removeQuotes] at *
    rw [hf]

/-- UnmarshalJSON on a bare decimal rendering of a 64-bit integer q yields
time.Unix(q/1000, 0). -/
theorem unmarshal_formatInt (q : Int)
    (h0 : -9223372036854775808 ≤ q) (h1 : q < 9223372036854775808) :
    UnmarshalJSON (formatInt q) = some (timeUnix (q.tdiv 1000)) := by
  rw [UnmarshalJSON, removeQuotes_eq_self _ (formatInt_no_quote q),
    goParseInt64_formatInt q h0 h1]

/-- On a successful fetch the verdict of run is one of OK, WARNING, CRITICAL. -/
theorem run_ok_status (now warnS critS : Int) (o : builds × Bool) :
    (run now warnS critS (Except.ok o)).status = Status.OK ∨
    (run now warnS critS (Except.ok o)).status = Status.WARNING ∨
    (run now warnS critS (Except.ok o)).status = Status.CRITICAL := by
  obtain ⟨bs, de⟩ := o
  cases hc : filterUnfinishedTooLongBuilds now bs.Builds (nsPerSecond * critS) with
  | cons b rest => simp [run, hc]
  | nil =>
    cases hw : filterUnfinishedTooLongBuilds now bs.Builds (nsPerSecond * warnS) with
    | cons b rest => simp [run, hc, hw]
    | nil => simp [run, hc, hw]

/-! ## Claim theorems -/

/-- C2: a build is in the output of filterUnfinishedTooLongBuilds exactly when
it is in the input, its result field is absent, and now minus its timestamp
strictly exceeds the threshold; hence a finished build never appears, nor a
build within the threshold. -/
theorem C2_filter_membership (now : Int) (bs : List build) (T : Int) (b : build) :
    b ∈ filterUnfinishedTooLongBuilds now bs T ↔
      b ∈ bs ∧ b.Result = none ∧ now - b.Timestamp > T :=
  mem_filterUnfinishedTooLongBuilds now bs T b

/-- C8: the filter is stable, its output is a subsequence of its input. -/
theorem C8_stable_filter (now : Int) (bs : List build) (T : Int) :
    (filterUnfinishedTooLongBuilds now bs T).Sublist bs := by
  unfold filterUnfinishedTooLongBuilds
  exact List.filter_sublist bs

/-- C10: the filter is antitone in the threshold: whatever passes the larger
threshold T1 also passes the smaller threshold T2; instantiated at the
critical and warning thresholds of run this says every CRITICAL trigger would
also trigger WARNING when critical ≥ warning. -/
theorem C10_threshold_monotone (now : Int) (bs : List build) (T1 T2 : Int) (hT : T2 ≤ T1)
    (b : build) (hb : b ∈ filterUnfinishedTooLongBuilds now bs T1) :
    b ∈ filterUnfinishedTooLongBuilds now bs T2 := by
  rw [mem_filterUnfinishedTooLongBuilds] at hb ⊢
  refine ⟨hb.1, hb.2.1, ?_⟩
  have := hb.2.2
  omega

/-- C10 witness: a build 400 seconds old passes the 300-second threshold, so
by the theorem it also passes the 60-second threshold. -/
theorem C10_threshold_monotone_witness :
    (60 * nsPerSecond ≤ 300 * nsPerSecond) ∧
    build.mk 57 none 0 ∈
      filterUnfinishedTooLongBuilds (400 * nsPerSecond) [build.mk 57 none 0]
        (60 * nsPerSecond) :=
  ⟨by decide, C10_threshold_monotone (400 * nsPerSecond) [build.mk 57 none 0]
      (300 * nsPerSecond) (60 * nsPerSecond) (by decide) (build.mk 57 none 0) (by decide)⟩

/-- C1: severity resolution of run on a fetched build list: a non-empty
critical filter gives CRITICAL with the first matching build number in the
message and evaluation stops; otherwise a non-empty warning filter gives
WARNING the same way; otherwise OK.  The statement quantifies over all
threshold pairs, so critical is checked first also when critS < warnS. -/
theorem C1_severity_resolution (now warnS critS : Int) (bs : builds) (de : Bool) :
    (∀ b rest,
      filterUnfinishedTooLongBuilds now bs.Builds (nsPerSecond * critS) = b :: rest →
        run now warnS critS (Except.ok (bs, de)) = ⟨Status.CRITICAL, buildMsg b⟩) ∧
    (filterUnfinishedTooLongBuilds now bs.Builds (nsPerSecond * critS) = [] →
      ∀ b rest,
        filterUnfinishedTooLongBuilds now bs.Builds (nsPerSecond * warnS) = b :: rest →
          run now warnS critS (Except.ok (bs, de)) = ⟨Status.WARNING, buildMsg b⟩) ∧
    (filterUnfinishedTooLongBuilds now bs.Builds (nsPerSecond * critS) = [] →
      filterUnfinishedTooLongBuilds now bs.Builds (nsPerSecond * warnS) = [] →
        run now warnS critS (Except.ok (bs, de)) =
          ⟨Status.OK, "No build that takes too long time exists"⟩) := by
  refine ⟨?_, ?_, ?_⟩
  · intro b rest h
    simp [run, h]
  · intro hc b rest h
    simp [run, hc, h]
  · intro hc hw
    simp [run, hc, hw]

/-- C1 witness: scenario A of the spec, one unfinished build 400 seconds old
against warning 60 and critical 300 gives CRITICAL for build 57. -/
theorem C1_severity_resolution_witness :
    run (400 * nsPerSecond) 60 300 (Except.ok (builds.mk [build.mk 57 none 0], false)) =
      ⟨Status.CRITICAL, ("Build id = 57 takes too long time")⟩ := by
  have h := (C1_severity_resolution (400 * nsPerSecond) 60 300
      (builds.mk [build.mk 57 none 0]) false).1 (build.mk 57 none 0) [] (by decide)
  exact h.trans (by decide)

/-- C7: a failed fetch yields the UNKNOWN verdict with the underlying error
text appended to the message and nothing else runs; a successful fetch always
yields one of OK, WARNING, CRITICAL; and run, being a function, produces
exactly one verdict per invocation. -/
theorem C7_fetch_failure (now warnS critS : Int) :
    (∀ e, run now warnS critS (Except.error e) =
        ⟨Status.UNKNOWN, ("Faild to fetch jenkins metrics: ") ++ e⟩) ∧
    (∀ o, (run now warnS critS (Except.ok o)).status = Status.OK ∨
        (run now warnS critS (Except.ok o)).status = Status.WARNING ∨
        (run now warnS critS (Except.ok o)).status = Status.CRITICAL) ∧
    (∀ f, ∃! c, run now warnS critS f = c) :=
  ⟨fun _ => rfl, run_ok_status now warnS critS,
    fun f => ⟨run now warnS critS f, rfl, fun _ h => h.symm⟩⟩

/-- C9: a body-decode failure does not abort the check: run ignores the decode
error flag, so the verdict is the one computed from whatever fields were
decoded (zero values where decoding failed), and a successful fetch never
yields UNKNOWN whatever the decode flag says. -/
theorem C9_decode_error_tolerated (now warnS critS : Int) (bs : builds) (e1 e2 : Bool) :
    run now warnS critS (Except.ok (bs, e1)) = run now warnS critS (Except.ok (bs, e2)) ∧
    ((run now warnS critS (Except.ok (bs, e1))).status = Status.OK ∨
     (run now warnS critS (Except.ok (bs, e1))).status = Status.WARNING ∨
     (run now warnS critS (Except.ok (bs, e1))).status = Status.CRITICAL) :=
  ⟨rfl, run_ok_status now warnS critS (bs, e1)⟩

/-- C4 counterexample: at the time 5 seconds after the epoch the code encodes
the seconds string while the claim demands the milliseconds rendering, and the
two strings differ. -/
theorem C4_encode_counterexample :
    (MarshalJSON (5 * nsPerSecond) = specMarshalMs (5 * nsPerSecond)) = False :=
  eq_false (by decide)

/-- C4 amended: MarshalJSON renders the seconds-since-epoch value of the time
(not its milliseconds value) as a decimal string: parsing the emitted string
back as a signed decimal numeral recovers exactly t.Unix(). -/
theorem C4_encode_amended (t : Int) :
    parseDecimal (MarshalJSON t) = some (unixSeconds t) :=
  parseDecimal_formatInt (unixSeconds t)

/-- C5: decoding the decimal rendering of a nonnegative 64-bit milliseconds
count m yields the absolute time at m/1000 whole seconds after the epoch; for
m ≥ 0 Go's truncating division agrees with the floor, so the sub-second part
is truncated away, and times are plain epoch offsets with no timezone. -/
theorem C5_decode_milliseconds (m : Int) (h0 : 0 ≤ m) (h1 : m < 9223372036854775808) :
    UnmarshalJSON (formatInt m) = some (timeUnix (m.tdiv 1000)) ∧
    m.tdiv 1000 = m.fdiv 1000 := by
  constructor
  · exact unmarshal_formatInt m (by omega) h1
  · rw [Int.tdiv_eq_ediv h0 (by norm_num), Int.fdiv_eq_ediv m (by norm_num)]

/-- C5 witness at the millisecond timestamp from the sample payload in the
source comment. -/
theorem C5_decode_milliseconds_witness :
    (0 ≤ (1503146442652 : Int)) ∧ ((1503146442652 : Int) < 9223372036854775808) ∧
    UnmarshalJSON (formatInt 1503146442652) =
      some (timeUnix ((1503146442652 : Int).tdiv 1000)) :=
  ⟨by decide, by decide, (C5_decode_milliseconds 1503146442652 (by decide) (by decide)).1⟩

/-- C3 counterexample: the time 2000 seconds after the epoch round-trips
through MarshalJSON and UnmarshalJSON to 2 seconds after the epoch, not to
itself truncated to whole seconds. -/
theorem C3_roundtrip_counterexample :
    (UnmarshalJSON (MarshalJSON (2000 * nsPerSecond)) =
      some (timeUnix (unixSeconds (2000 * nsPerSecond)))) = False :=
  eq_false (by decide)

/-- C3 amended: encode emits epoch seconds while decode divides by 1000
expecting milliseconds, so the round trip lands on time.Unix(t.Unix()/1000, 0)
rather than on t truncated to whole seconds; the two agree only when the
epoch-second count of t is below 1000 in magnitude. -/
theorem C3_roundtrip_amended (t : Int)
    (h0 : -9223372036854775808 ≤ unixSeconds t)
    (h1 : unixSeconds t < 9223372036854775808) :
    UnmarshalJSON (MarshalJSON t) = some (timeUnix ((unixSeconds t).tdiv 1000)) :=
  unmarshal_formatInt (unixSeconds t) h0 h1

/-- C3 witness at the time 2000 seconds after the epoch. -/
theorem C3_roundtrip_amended_witness :
    (-9223372036854775808 ≤ unixSeconds (2000 * nsPerSecond)) ∧
    (unixSeconds (2000 * nsPerSecond) < 9223372036854775808) ∧
    UnmarshalJSON (MarshalJSON (2000 * nsPerSecond)) =
      some (timeUnix ((unixSeconds (2000 * nsPerSecond)).tdiv 1000)) :=
  ⟨by decide, by decide, C3_roundtrip_amended (2000 * nsPerSecond) (by decide) (by decide)⟩

/-- C6 counterexample: the claimed characterization of decode errors fails in
both directions: on an input with an interior quote the spec predicate says
error but the code removes every quote and succeeds, and on a 20-digit numeral
the spec predicate says success (a valid decimal integer) but ParseInt fails
its 64-bit range check and the decode errors. -/
theorem C6_decode_error_counterexample :
    (((UnmarshalJSON ("1\"2") = none) ↔
        parseDecimal (stripSurroundingQuotes ("1\"2")) = none) = False) ∧
    (((UnmarshalJSON ("99999999999999999999") = none) ↔
        parseDecimal (stripSurroundingQuotes ("99999999999999999999")) = none) = False) :=
  ⟨eq_false (by decide), eq_false (by decide)⟩

/-- C6 amended: UnmarshalJSON fails exactly when, after removing every quote
character (not only surrounding ones), the remainder is not an optionally
signed decimal numeral or its value falls outside the signed 64-bit range; on
failure no time value is produced. -/
theorem C6_decode_error_amended (s : String) :
    (UnmarshalJSON s = none) ↔
      (parseDecimal (removeQuotes s) = none ∨
       ∃ v, parseDecimal (removeQuotes s) = some v ∧
         (v < -9223372036854775808 ∨ 9223372036854775808 ≤ v)) := by
  cases hp : parseDecimal (removeQuotes s) with
  | none => simp [UnmarshalJSON, goParseInt64, hp]
  | some v =>
    by_cases hr : -9223372036854775808 ≤ v ∧ v < 9223372036854775808
    · simp only [UnmarshalJSON, goParseInt64, hp, if_pos hr]
      simp
      omega
    · simp only [UnmarshalJSON, goParseInt64, hp, if_neg hr]
      simp
      omega
